import Mathlib

/-!
Verification of `src/compute_sales.py` (sales aggregation against a price
catalogue) through a shallow embedding in Lean 4.

Embedding conventions, fixed once for the whole file:
* Python floats are modelled by `ℚ`; float addition/multiplication become
  exact rational operations.  The accumulation *order* of the source is kept.
* JSON files are modelled by `FileState (List α)`: a file is absent, present
  but unparseable, or present and parsed to a typed list.  Values follow the
  declared record shapes of the program (`{title, price}` products,
  `{Product, Quantity}` sale records); a missing key becomes `Option`.
* Python `dict` is modelled by an insertion-ordered association list with
  Python's insert-or-update semantics (`pyInsert`) and first-match lookup
  (`pyGet?`); keys produced by the program are unique, so first-match lookup
  agrees with Python's lookup.
* `print` output and file writes are made explicit: every embedded function
  returns its printed lines and its writes alongside its value.
-/

/-- Decimal digits of `n`, least significant first, driven by a fuel argument
so that the definition is structural (kernel-reducible).  Mirrors the digit
loop behind Python's `str(int)`. -/
def digitsRevGo : ℕ → ℕ → List ℕ
  | 0, _ => []
  | fuel + 1, n => if n = 0 then [] else n % 10 :: digitsRevGo fuel (n / 10)

/-- The decimal rendering of a natural number, as Python's `str` produces it. -/
def pyNatStr (n : ℕ) : String :=
  if n = 0 then "0" else ⟨((digitsRevGo n n).reverse).map Nat.digitChar⟩

/-- Numeric value of a decimal digit character (inverse of `Nat.digitChar`
on digits below ten). -/
def charVal (c : Char) : ℕ := c.toNat - 48

/-- Decode a decimal string back to the natural number it renders. -/
def strToNat (s : String) : ℕ := Nat.ofDigits 10 ((s.data.map charVal).reverse)

theorem charVal_digitChar {d : ℕ} (hd : d < 10) : charVal (Nat.digitChar d) = d := by
  interval_cases d <;> rfl

theorem digitsRevGo_lt_ten {fuel n d : ℕ} (h : d ∈ digitsRevGo fuel n) : d < 10 := by
  induction fuel generalizing n with
  | zero => simp [digitsRevGo] at h
  | succ fuel ih =>
    rw [digitsRevGo] at h
    by_cases hn : n = 0
    · simp [hn] at h
    · simp [hn] at h
      rcases h with h | h
      · omega
      · exact ih h

theorem ofDigits_digitsRevGo {fuel n : ℕ} (h : n ≤ fuel) :
    Nat.ofDigits 10 (digitsRevGo fuel n) = n := by
  induction fuel generalizing n with
  | zero => simp [digitsRevGo]; omega
  | succ fuel ih =>
    rw [digitsRevGo]
    by_cases hn : n = 0
    · simp [hn]
    · have hdiv : n / 10 ≤ fuel := by
        have := Nat.div_lt_self (Nat.pos_of_ne_zero hn) (by norm_num : (1:ℕ) < 10)
        omega
      simp only [hn, if_false, Nat.ofDigits_cons, ih hdiv]
      omega

theorem strToNat_pyNatStr (n : ℕ) : strToNat (pyNatStr n) = n := by
  by_cases hn : n = 0
  · subst hn; rfl
  · simp only [pyNatStr, hn, if_false, strToNat]
    have hmap : (((digitsRevGo n n).reverse).map Nat.digitChar).map charVal
        = (digitsRevGo n n).reverse := by
      rw [List.map_map]
      have hid : ∀ d ∈ (digitsRevGo n n).reverse, (charVal ∘ Nat.digitChar) d = id d := by
        intro d hd
        exact charVal_digitChar (digitsRevGo_lt_ten (List.mem_reverse.mp hd))
      rw [List.map_congr_left hid, List.map_id]
    show Nat.ofDigits 10 (((((digitsRevGo n n).reverse).map Nat.digitChar).map charVal).reverse) = n
    rw [hmap, List.reverse_reverse, ofDigits_digitsRevGo (le_refl n)]

theorem pyNatStr_injective : Function.Injective pyNatStr := by
  intro a b h
  have := congrArg strToNat h
  rwa [strToNat_pyNatStr, strToNat_pyNatStr] at this

/-! ### Python dictionaries as insertion-ordered association lists -/

/-- Python `d[k] = v`: update the value in place if the key is present,
otherwise append the new pair at the end (insertion order). -/
def pyInsert {α β : Type} [DecidableEq α] : List (α × β) → α → β → List (α × β)
  | [], k, v => [(k, v)]
  | (a, b) :: rest, k, v =>
    if a = k then (a, v) :: rest else (a, b) :: pyInsert rest k v

/-- Python `d.get(k)` / `d[k]`: the value stored under `k`, if any. -/
def pyGet? {α β : Type} [DecidableEq α] : List (α × β) → α → Option β
  | [], _ => none
  | (a, b) :: rest, k => if a = k then some b else pyGet? rest k

theorem pyGet?_pyInsert {α β : Type} [DecidableEq α]
    (d : List (α × β)) (k : α) (v : β) (k' : α) :
    pyGet? (pyInsert d k v) k' = if k' = k then some v else pyGet? d k' := by
  induction d with
  | nil =>
    by_cases h : k' = k
    · simp [pyInsert, pyGet?, h]
    · simp [pyInsert, pyGet?, h, Ne.symm h]
  | cons kv rest ih =>
    obtain ⟨a, b⟩ := kv
    by_cases hak : a = k
    · subst hak
      by_cases h : k' = a
      · simp [pyInsert, pyGet?, h]
      · simp [pyInsert, pyGet?, h, Ne.symm h]
    · by_cases h : k' = a
      · subst h
        simp [pyInsert, pyGet?, hak]
      · simp [pyInsert, pyGet?, hak, h, Ne.symm h, ih]

theorem pyInsert_of_not_mem {α β : Type} [DecidableEq α]
    {d : List (α × β)} {k : α} (v : β) (h : ∀ kv ∈ d, kv.1 ≠ k) :
    pyInsert d k v = d ++ [(k, v)] := by
  induction d with
  | nil => rfl
  | cons kv rest ih =>
    obtain ⟨a, b⟩ := kv
    have ha : a ≠ k := h (a, b) (List.mem_cons_self _ _)
    simp only [pyInsert, ha, if_false, List.cons_append, List.cons.injEq, true_and]
    exact ih fun kv hkv => h kv (List.mem_cons_of_mem _ hkv)

theorem pyGet?_append_right {α β : Type} [DecidableEq α]
    {l₁ : List (α × β)} (l₂ : List (α × β)) {k : α} (h : ∀ kv ∈ l₁, kv.1 ≠ k) :
    pyGet? (l₁ ++ l₂) k = pyGet? l₂ k := by
  induction l₁ with
  | nil => rfl
  | cons kv rest ih =>
    obtain ⟨a, b⟩ := kv
    have ha : a ≠ k := h (a, b) (List.mem_cons_self _ _)
    simp only [List.cons_append, pyGet?, ha, if_false]
    exact ih fun kv hkv => h kv (List.mem_cons_of_mem _ hkv)

/-- Build a Python dict from a list of key-value pairs by successive
insertion — the semantics of a dict comprehension. -/
def pyOfPairs {α β : Type} [DecidableEq α] (l : List (α × β)) : List (α × β) :=
  l.foldl (fun d kv => pyInsert d kv.1 kv.2) []

theorem pyGet?_foldl_pyInsert {α β : Type} [DecidableEq α]
    (l : List (α × β)) (k : α) :
    ∀ d : List (α × β),
      pyGet? (l.foldl (fun d kv => pyInsert d kv.1 kv.2) d) k
        = l.foldl (fun acc kv => if kv.1 = k then some kv.2 else acc) (pyGet? d k) := by
  induction l with
  | nil => intro d; rfl
  | cons kv rest ih =>
    intro d
    simp only [List.foldl_cons, ih, pyGet?_pyInsert]
    by_cases h : kv.1 = k
    · simp [h]
    · simp [h, Ne.symm h]

theorem pyGet?_pyOfPairs {α β : Type} [DecidableEq α] (l : List (α × β)) (k : α) :
    pyGet? (pyOfPairs l) k
      = l.foldl (fun acc kv => if kv.1 = k then some kv.2 else acc) none := by
  simpa [pyOfPairs, pyGet?] using pyGet?_foldl_pyInsert l k []

/-! ### Data model -/

/-- One entry of the product-list file: `{title, price}` plus any further
fields, which the catalogue builder drops (kept here as raw key/value text
so that dropping them is observable). -/
structure Product where
  title : String
  price : ℚ
  extras : List (String × String)
deriving DecidableEq

/-- One entry of the derived price catalogue: the `{title, price}`
projection of a product. -/
structure CatEntry where
  title : String
  price : ℚ
deriving DecidableEq

/-- One sale record `{Product, Quantity}`; `none` models an absent key, so
`sale.get("Product")` is `product` and `sale.get("Quantity", 0)` is
`quantity.getD 0`. -/
structure SaleRecord where
  product : Option String
  quantity : Option ℚ
deriving DecidableEq

/-- State of a file on disk: absent, present but not valid JSON, or present
and parsed to `data`. -/
inductive FileState (α : Type) where
  | absent
  | invalid
  | valid (data : α)
deriving DecidableEq

/-- `os.path.exists`: a file that is present (parseable or not) exists. -/
def FileState.existsOnDisk {α : Type} : FileState α → Bool
  | .absent => false
  | _ => true

/-! ### `load_json_file` (src/compute_sales.py lines 10-23)

Returns the parsed list together with the lines it prints.  A missing file
(`FileNotFoundError`) or unparseable file (`json.JSONDecodeError`) is caught
and yields `[]`; the exception text that Python interpolates into the error
line is abstracted to the exception's name. -/
def load_json_file {α : Type} (filename : String) : FileState (List α) → List α × List String
  | .valid data =>
    (data, ["Loading file: " ++ filename,
            "Successfully loaded " ++ filename ++ ", " ++ pyNatStr data.length
              ++ " records found."])
  | .absent =>
    ([], ["Loading file: " ++ filename,
          "Error loading " ++ filename ++ ": FileNotFoundError"])
  | .invalid =>
    ([], ["Loading file: " ++ filename,
          "Error loading " ++ filename ++ ": JSONDecodeError"])

/-- Result of `generate_price_catalogue`: its return value, the lines it
prints, and the content written to the catalogue cache file (`none` when it
does not write). -/
structure GenOut where
  result : List CatEntry
  prints : List String
  cacheWrite : Option (List CatEntry)
deriving DecidableEq

/-- The `{title, price}` projection of line 40 of the source. -/
def projectProduct (item : Product) : CatEntry :=
  { title := item.title, price := item.price }

/-! ### `generate_price_catalogue` (src/compute_sales.py lines 26-51) -/

def generate_price_catalogue (product_list_file : String)
    (productF : FileState (List Product)) (catalogue_file : String)
    (cacheF : FileState (List CatEntry)) : GenOut :=
  if FileState.existsOnDisk cacheF then
    let loaded := load_json_file catalogue_file cacheF
    { result := loaded.1, prints := loaded.2, cacheWrite := none }
  else
    let loaded := load_json_file product_list_file productF
    if loaded.1.isEmpty then
      { result := [],
        prints := loaded.2 ++ ["Error: Product list file is empty or invalid."],
        cacheWrite := none }
    else
      let catalogue_data := loaded.1.map projectProduct
      { result := catalogue_data,
        prints := loaded.2 ++ ["Generated " ++ catalogue_file ++ " with "
          ++ pyNatStr catalogue_data.length ++ " products."],
        cacheWrite := some catalogue_data }

/-! ### `compute_total_sales` (src/compute_sales.py lines 54-85) -/

/-- The `product_prices` dict comprehension of lines 59-62. -/
def pricesOf (product_catalogue : List CatEntry) : List (String × ℚ) :=
  pyOfPairs (product_catalogue.map fun product => (product.title, product.price))

/-- The membership test plus subscript of lines 73-74:
`product_name in product_prices` and `product_prices[product_name]` in one
lookup (`None`, i.e. a missing `"Product"` key, is never a key). -/
def lookupName (product_prices : List (String × ℚ)) : Option String → Option ℚ
  | none => none
  | some name => pyGet? product_prices name

/-- One iteration of the inner loop of lines 69-79 acting on `total_sales`. -/
def saleStep (product_prices : List (String × ℚ)) (total_sales : ℚ)
    (sale : SaleRecord) : ℚ :=
  match lookupName product_prices sale.product with
  | some price => total_sales + price * sale.quantity.getD 0
  | none => total_sales

/-- The inner loop of lines 68-79: one file's total. -/
def fileTotal (product_prices : List (String × ℚ)) (sales_data : List SaleRecord) : ℚ :=
  sales_data.foldl (saleStep product_prices) 0

/-- Python's `str` of the value bound to a missing key. -/
def pyShowOpt : Option String → String
  | none => "None"
  | some s => s

/-- The warning line printed on lines 76-79. -/
def warnFor (product_name : Option String) : String :=
  "Warning: Product '" ++ pyShowOpt product_name ++ "' not found in catalogue."

/-- The warning lines the inner loop prints for one file, in record order
(each record prints exactly one warning when its product is unknown,
nothing otherwise). -/
def fileWarnings (product_prices : List (String × ℚ))
    (sales_data : List SaleRecord) : List String :=
  sales_data.filterMap fun sale =>
    match lookupName product_prices sale.product with
    | some _ => none
    | none => some (warnFor sale.product)

/-- The key `f"Sales File {idx}"` of line 81. -/
def fileLabel (idx : ℕ) : String := "Sales File " ++ pyNatStr idx

/-- The outer loop of lines 67-82: threads the result dict
`total_sales_per_file`, the running `total_combined_sales` and the 1-based
`enumerate` counter through the list of sales collections. -/
def salesLoop (product_prices : List (String × ℚ)) (d : List (String × ℚ))
    (comb : ℚ) (idx : ℕ) : List (List SaleRecord) → List (String × ℚ) × ℚ
  | [] => (d, comb)
  | sales_data :: rest =>
    salesLoop product_prices
      (pyInsert d (fileLabel idx) (fileTotal product_prices sales_data))
      (comb + fileTotal product_prices sales_data) (idx + 1) rest

def compute_total_sales (product_catalogue : List CatEntry)
    (sales_data_list : List (List SaleRecord)) : List (String × ℚ) :=
  let product_prices := pricesOf product_catalogue
  let res := salesLoop product_prices [] 0 1 sales_data_list
  pyInsert res.1 "Total Combined Sales" res.2

/-- All warning lines `compute_total_sales` prints, file by file. -/
def computeWarnings (product_catalogue : List CatEntry)
    (sales_data_list : List (List SaleRecord)) : List String :=
  (sales_data_list.map (fileWarnings (pricesOf product_catalogue))).flatten

/-! ### `save_results` formatting (src/compute_sales.py lines 88-104) and
`main` (lines 107-141)

Python's `f"{v:.2f}"` formats a binary float with round-half-even; over the
exact rationals of this embedding it is abstracted to exact fixed-point
rounding (`Rat.floor (q * 10^d + 1/2)`).  No claim depends on the tie
behaviour.  Wall-clock time cannot be computed in the embedding, so the
elapsed time is a parameter of `runMain`. -/

/-- Left-pad a digit string with zeros to `width` characters. -/
def zeroPad (width : ℕ) (s : String) : String :=
  ⟨List.replicate (width - s.length) '0'⟩ ++ s

/-- Fixed-point rendering of a rational with `d` digits after the point. -/
def fmtFixed (d : ℕ) (q : ℚ) : String :=
  let scaled : ℤ := Rat.floor (q * (10 ^ d : ℚ) + 1 / 2)
  let sign := if scaled < 0 then "-" else ""
  let n := scaled.natAbs
  sign ++ pyNatStr (n / 10 ^ d) ++ "." ++ zeroPad d (pyNatStr (n % 10 ^ d))

/-- The text `save_results` prints and writes: one `label: $total` line per
dict entry in insertion order, then the execution-time line. -/
def renderResults (total_sales_data : List (String × ℚ)) (execution_time : ℚ) : String :=
  String.intercalate "\n"
      (total_sales_data.map fun kv => kv.1 ++ ": $" ++ fmtFixed 2 kv.2)
    ++ "\nExecution Time: " ++ fmtFixed 4 execution_time ++ " seconds"

/-- Command-line input of one run once at least two arguments are present:
the product-list file, the state of the fixed-path catalogue cache, and the
named sales files of `sys.argv[2:]`. -/
structure RunInput where
  productListFile : String
  productF : FileState (List Product)
  cacheF : FileState (List CatEntry)
  salesFiles : List (String × FileState (List SaleRecord))
deriving DecidableEq

/-- Observable outcome of one program run: exit status, console lines in
order, the catalogue-cache write (if any) and the results-file write (if
any). -/
structure MainOutcome where
  exitCode : ℕ
  prints : List String
  cacheWrite : Option (List CatEntry)
  outputWrite : Option String
deriving DecidableEq

def usageMsg : String :=
  "Usage: python computeSales.py productList.json salesRecord.json "
    ++ "[salesRecord2.json salesRecord3.json ...]"

def catalogueErrMsg : String := "Error: Product catalogue could not be loaded correctly."

def salesErrMsg (filename : String) : String :=
  "Error: Sales file " ++ filename ++ " could not be loaded correctly."

/-- The loaded sales files of lines 126-129, each with its printed lines. -/
def loadedSales (r : RunInput) : List (String × (List SaleRecord × List String)) :=
  r.salesFiles.map fun p => (p.1, load_json_file p.1 p.2)

/-- `main`, lines 107-141.  `none` models `len(sys.argv) < 3`; `elapsed` is
the measured wall-clock delta. -/
def runMain (inp : Option RunInput) (elapsed : ℚ) : MainOutcome :=
  match inp with
  | none => { exitCode := 1, prints := [usageMsg], cacheWrite := none, outputWrite := none }
  | some r =>
    let g := generate_price_catalogue r.productListFile r.productF
      "priceCatalogue.json" r.cacheF
    if g.result.isEmpty then
      { exitCode := 1, prints := g.prints ++ [catalogueErrMsg],
        cacheWrite := g.cacheWrite, outputWrite := none }
    else
      let loaded := loadedSales r
      let loadPrints := (loaded.map fun p => p.2.2).flatten
      match loaded.find? (fun p => p.2.1.isEmpty) with
      | some bad =>
        { exitCode := 1, prints := g.prints ++ loadPrints ++ [salesErrMsg bad.1],
          cacheWrite := g.cacheWrite, outputWrite := none }
      | none =>
        let sales_data_list := loaded.map fun p => p.2.1
        let text := renderResults (compute_total_sales g.result sales_data_list) elapsed
        { exitCode := 0,
          prints := g.prints ++ loadPrints
            ++ computeWarnings g.result sales_data_list ++ [text],
          cacheWrite := g.cacheWrite, outputWrite := some text }

/-! ### Key lemmas about the result dict's labels -/

theorem string_append_left_cancel {a b c : String} (h : a ++ b = a ++ c) : b = c := by
  have h2 := congrArg String.data h
  rw [String.data_append, String.data_append] at h2
  have h3 := List.append_cancel_left h2
  cases b; cases c
  exact congrArg String.mk h3

theorem fileLabel_injective : Function.Injective fileLabel := by
  intro a b h
  exact pyNatStr_injective (string_append_left_cancel h)

theorem fileLabel_ne_total (i : ℕ) : fileLabel i ≠ "Total Combined Sales" := by
  intro h
  have h2 : (fileLabel i).data.head? = ("Total Combined Sales" : String).data.head? :=
    congrArg (fun s => s.data.head?) h
  have h3 : (fileLabel i).data.head? = some 'S' := rfl
  rw [h3] at h2
  simp at h2

/-- Specification-side shape of the per-file entries: the file totals
labelled from `idx` on. -/
def labelTotals (idx : ℕ) : List ℚ → List (String × ℚ)
  | [] => []
  | t :: ts => (fileLabel idx, t) :: labelTotals (idx + 1) ts

theorem labelTotals_keys (idx : ℕ) (ts : List ℚ) :
    ∀ kv ∈ labelTotals idx ts, ∃ j, idx ≤ j ∧ j < idx + ts.length ∧ kv.1 = fileLabel j := by
  induction ts generalizing idx with
  | nil => intro kv h; simp [labelTotals] at h
  | cons t ts ih =>
    intro kv h
    rw [labelTotals] at h
    rcases List.mem_cons.mp h with h | h
    · exact ⟨idx, le_refl idx, by simp, by rw [h]⟩
    · obtain ⟨j, h1, h2, h3⟩ := ih (idx + 1) kv h
      exact ⟨j, by omega, by simp; omega, h3⟩

theorem labelTotals_map_snd (idx : ℕ) (ts : List ℚ) :
    (labelTotals idx ts).map Prod.snd = ts := by
  induction ts generalizing idx with
  | nil => rfl
  | cons t ts ih => simp [labelTotals, ih]

theorem labelTotals_map_fst (ts : List ℚ) :
    ∀ idx, (labelTotals idx ts).map Prod.fst
      = (List.range ts.length).map fun k => fileLabel (idx + k) := by
  induction ts with
  | nil => intro idx; rfl
  | cons t ts ih =>
    intro idx
    simp only [labelTotals, List.map_cons, List.length_cons, List.range_succ_eq_map,
      List.map_map, ih]
    refine congrArg₂ List.cons (by rw [Nat.add_zero]) ?_
    apply List.map_congr_left
    intro k _
    simp only [Function.comp]
    exact congrArg fileLabel (by omega)

theorem labelTotals_length (idx : ℕ) (ts : List ℚ) :
    (labelTotals idx ts).length = ts.length := by
  have := congrArg List.length (labelTotals_map_snd idx ts)
  simpa using this

/-- The outer loop appends one labelled entry per file and accumulates the
combined total, provided every key already in the dict carries a label of an
earlier index. -/
theorem salesLoop_spec (product_prices : List (String × ℚ)) :
    ∀ (s : List (List SaleRecord)) (d : List (String × ℚ)) (comb : ℚ) (idx : ℕ),
      (∀ kv ∈ d, ∃ j, j < idx ∧ kv.1 = fileLabel j) →
      salesLoop product_prices d comb idx s
        = (d ++ labelTotals idx (s.map (fileTotal product_prices)),
           comb + (s.map (fileTotal product_prices)).sum) := by
  intro s
  induction s with
  | nil => intro d comb idx _; simp [salesLoop, labelTotals]
  | cons sales_data rest ih =>
    intro d comb idx hd
    rw [salesLoop]
    have hins : pyInsert d (fileLabel idx) (fileTotal product_prices sales_data)
        = d ++ [(fileLabel idx, fileTotal product_prices sales_data)] := by
      apply pyInsert_of_not_mem
      intro kv hkv
      obtain ⟨j, hj, hkey⟩ := hd kv hkv
      rw [hkey]
      exact fun h => absurd (fileLabel_injective h) (by omega)
    rw [hins, ih _ _ (idx + 1) ?_]
    · simp only [List.map_cons, labelTotals, List.sum_cons, List.append_assoc,
        List.singleton_append]
      rw [add_assoc]
    · intro kv hkv
      rcases List.mem_append.mp hkv with h | h
      · obtain ⟨j, hj, hkey⟩ := hd kv h
        exact ⟨j, by omega, hkey⟩
      · simp at h
        exact ⟨idx, by omega, by rw [h]⟩

/-- Closed form of `compute_total_sales`: the per-file totals labelled
`"Sales File 1"` … in input order, then the combined entry. -/
theorem compute_total_sales_spec (product_catalogue : List CatEntry)
    (sales_data_list : List (List SaleRecord)) :
    compute_total_sales product_catalogue sales_data_list
      = labelTotals 1 (sales_data_list.map (fileTotal (pricesOf product_catalogue)))
        ++ [("Total Combined Sales",
             (sales_data_list.map (fileTotal (pricesOf product_catalogue))).sum)] := by
  show pyInsert (salesLoop (pricesOf product_catalogue) [] 0 1 sales_data_list).1
      "Total Combined Sales" (salesLoop (pricesOf product_catalogue) [] 0 1 sales_data_list).2
    = _
  rw [salesLoop_spec (pricesOf product_catalogue) sales_data_list [] 0 1 (by simp)]
  simp only [List.nil_append]
  rw [pyInsert_of_not_mem]
  · rw [zero_add]
  · intro kv hkv
    obtain ⟨j, _, _, hkey⟩ := labelTotals_keys 1 _ kv hkv
    rw [hkey]
    exact fileLabel_ne_total j

/-! ### Further lemmas for the price dict -/

theorem pyGet?_pricesOf (product_catalogue : List CatEntry) (t : String) :
    pyGet? (pricesOf product_catalogue) t
      = product_catalogue.foldl
          (fun acc p => if p.title = t then some p.price else acc) none := by
  rw [pricesOf, pyGet?_pyOfPairs, List.foldl_map]

theorem foldl_if_no_match (t : String) {c : List CatEntry}
    (h : ∀ e ∈ c, e.title ≠ t) (acc : Option ℚ) :
    c.foldl (fun acc p => if p.title = t then some p.price else acc) acc = acc := by
  induction c generalizing acc with
  | nil => rfl
  | cons e rest ih =>
    rw [List.foldl_cons, if_neg (h e (List.mem_cons_self _ _))]
    exact ih (fun e2 he2 => h e2 (List.mem_cons_of_mem _ he2)) acc

/-! ### Claims about `compute_total_sales` -/

/-- Claim C1: for every catalogue and every ordered list of sales
collections, the `"Total Combined Sales"` entry of the result equals the sum
of all the per-file entries of the same result (the entries before it, i.e.
all but the last). -/
theorem combined_total_eq_sum_of_per_file (product_catalogue : List CatEntry)
    (sales_data_list : List (List SaleRecord)) :
    pyGet? (compute_total_sales product_catalogue sales_data_list) "Total Combined Sales"
      = some ((((compute_total_sales product_catalogue sales_data_list).dropLast).map
          Prod.snd).sum) := by
  rw [compute_total_sales_spec, List.dropLast_concat, labelTotals_map_snd]
  rw [pyGet?_append_right]
  · simp [pyGet?]
  · intro kv hkv
    obtain ⟨j, _, _, hkey⟩ := labelTotals_keys 1 _ kv hkv
    rw [hkey]
    exact fileLabel_ne_total j

/-- Claim C5: the result maps the per-file entries first, labelled
`"Sales File 1"` through `"Sales File n"` in input order, with the
`"Total Combined Sales"` entry last. -/
theorem result_keys_in_order (product_catalogue : List CatEntry)
    (sales_data_list : List (List SaleRecord)) :
    (compute_total_sales product_catalogue sales_data_list).map Prod.fst
      = (List.range sales_data_list.length).map
          (fun i => "Sales File " ++ pyNatStr (i + 1))
        ++ ["Total Combined Sales"] := by
  rw [compute_total_sales_spec, List.map_append, labelTotals_map_fst]
  simp only [List.length_map, List.map_cons, List.map_nil]
  congr 1
  apply List.map_congr_left
  intro k _
  show fileLabel (1 + k) = _
  rw [Nat.add_comm]
  rfl

/-- Claim C10: the result always has exactly `n + 1` entries for `n` input
collections, and for no collections it is exactly the zero combined entry. -/
theorem result_size_and_empty (product_catalogue : List CatEntry)
    (sales_data_list : List (List SaleRecord)) :
    (compute_total_sales product_catalogue sales_data_list).length
        = sales_data_list.length + 1
    ∧ compute_total_sales product_catalogue [] = [("Total Combined Sales", 0)] := by
  constructor
  · rw [compute_total_sales_spec]
    simp [labelTotals_length]
  · rfl

/-- Claim C9: when the catalogue holds several entries with one title, the
price lookup keeps the last such entry's price, and a sale of that title is
priced at the last entry's price. -/
theorem duplicate_titles_last_wins (c1 c2 : List CatEntry) (e : CatEntry)
    (total q : ℚ) (h : ∀ e2 ∈ c2, e2.title ≠ e.title) :
    pyGet? (pricesOf (c1 ++ e :: c2)) e.title = some e.price
    ∧ saleStep (pricesOf (c1 ++ e :: c2)) total ⟨some e.title, some q⟩
        = total + e.price * q := by
  have hget : pyGet? (pricesOf (c1 ++ e :: c2)) e.title = some e.price := by
    rw [pyGet?_pricesOf, List.foldl_append, List.foldl_cons, if_pos rfl]
    exact foldl_if_no_match e.title h _
  refine ⟨hget, ?_⟩
  simp [saleStep, lookupName, hget]

/-- Witness for C9 at a concrete catalogue with a duplicated title. -/
theorem duplicate_titles_last_wins_witness :
    (∀ e2 ∈ ([] : List CatEntry), e2.title ≠ (CatEntry.mk "Widget" 5).title)
    ∧ (pyGet? (pricesOf ([⟨"Widget", 2⟩] ++ ⟨"Widget", 5⟩ :: [])) (CatEntry.mk "Widget" 5).title
          = some (CatEntry.mk "Widget" 5).price
        ∧ saleStep (pricesOf ([⟨"Widget", 2⟩] ++ ⟨"Widget", 5⟩ :: [])) 0
            ⟨some (CatEntry.mk "Widget" 5).title, some 3⟩
          = 0 + (CatEntry.mk "Widget" 5).price * 3) :=
  ⟨by decide, duplicate_titles_last_wins [⟨"Widget", 2⟩] [] ⟨"Widget", 5⟩ 0 3 (by decide)⟩

/-- Claim C2: a sale record whose product is missing or absent from the
catalogue, wherever it stands within its file, contributes exactly zero —
the whole result mapping is unchanged if the record is removed — while a
warning for it is emitted in place and the surrounding records are still
processed. -/
theorem unknown_product_contributes_zero (product_catalogue : List CatEntry)
    (sale : SaleRecord) (mid rest : List SaleRecord) (pre post : List (List SaleRecord))
    (h : lookupName (pricesOf product_catalogue) sale.product = none) :
    compute_total_sales product_catalogue (pre ++ (mid ++ sale :: rest) :: post)
      = compute_total_sales product_catalogue (pre ++ (mid ++ rest) :: post)
    ∧ computeWarnings product_catalogue (pre ++ (mid ++ sale :: rest) :: post)
      = (pre.map (fileWarnings (pricesOf product_catalogue))).flatten
        ++ (fileWarnings (pricesOf product_catalogue) mid
            ++ warnFor sale.product :: fileWarnings (pricesOf product_catalogue) rest)
        ++ (post.map (fileWarnings (pricesOf product_catalogue))).flatten := by
  have hstep : ∀ total : ℚ, saleStep (pricesOf product_catalogue) total sale = total := by
    intro total
    simp [saleStep, h]
  have hft : fileTotal (pricesOf product_catalogue) (mid ++ sale :: rest)
      = fileTotal (pricesOf product_catalogue) (mid ++ rest) := by
    rw [fileTotal, fileTotal, List.foldl_append, List.foldl_append, List.foldl_cons, hstep]
  constructor
  · rw [compute_total_sales_spec, compute_total_sales_spec]
    simp only [List.map_append, List.map_cons, hft]
  · have hfw : fileWarnings (pricesOf product_catalogue) (mid ++ sale :: rest)
        = fileWarnings (pricesOf product_catalogue) mid
          ++ warnFor sale.product :: fileWarnings (pricesOf product_catalogue) rest := by
      simp [fileWarnings, List.filterMap_append, List.filterMap_cons, h]
    simp only [computeWarnings, List.map_append, List.map_cons, List.flatten_append,
      List.flatten_cons, hfw]
    simp

/-- Witness for C2: a sale of the unknown product `"Gadget"` standing in the
middle of its file — after a known record that has already accumulated a
non-zero running total — against a catalogue holding only `"Widget"`. -/
theorem unknown_product_contributes_zero_witness :
    lookupName (pricesOf [⟨"Widget", 2⟩]) (SaleRecord.mk (some "Gadget") (some 5)).product = none
    ∧ (compute_total_sales [⟨"Widget", 2⟩]
          ([] ++ ([⟨some "Widget", some 1⟩] ++ ⟨some "Gadget", some 5⟩
            :: [⟨some "Widget", some 3⟩]) :: [])
        = compute_total_sales [⟨"Widget", 2⟩]
            ([] ++ ([⟨some "Widget", some 1⟩] ++ [⟨some "Widget", some 3⟩]) :: [])
      ∧ computeWarnings [⟨"Widget", 2⟩]
          ([] ++ ([⟨some "Widget", some 1⟩] ++ ⟨some "Gadget", some 5⟩
            :: [⟨some "Widget", some 3⟩]) :: [])
        = (([] : List (List SaleRecord)).map (fileWarnings (pricesOf [⟨"Widget", 2⟩]))).flatten
          ++ (fileWarnings (pricesOf [⟨"Widget", 2⟩]) [⟨some "Widget", some 1⟩]
              ++ warnFor (SaleRecord.mk (some "Gadget") (some 5)).product
                :: fileWarnings (pricesOf [⟨"Widget", 2⟩]) [⟨some "Widget", some 3⟩])
          ++ (([] : List (List SaleRecord)).map (fileWarnings (pricesOf [⟨"Widget", 2⟩]))).flatten) :=
  ⟨by decide,
   unknown_product_contributes_zero [⟨"Widget", 2⟩] ⟨some "Gadget", some 5⟩
     [⟨some "Widget", some 1⟩] [⟨some "Widget", some 3⟩] [] [] (by decide)⟩

/-! ### Claims about `generate_price_catalogue` -/

/-- Claim C3: on the cold path (no cache file) a well-formed non-empty
product list yields one catalogue entry per product, in input order, each
keeping the product's title and price and dropping every other field. -/
theorem cold_path_catalogue_projects_products (product_list_file catalogue_file : String)
    (ps : List Product) (h : ps ≠ []) :
    (generate_price_catalogue product_list_file (FileState.valid ps) catalogue_file
        FileState.absent).result = ps.map projectProduct
    ∧ (generate_price_catalogue product_list_file (FileState.valid ps) catalogue_file
        FileState.absent).result.length = ps.length := by
  have hne : ps.isEmpty = false := by
    cases ps
    · exact absurd rfl h
    · rfl
  constructor <;>
    simp [generate_price_catalogue, FileState.existsOnDisk, load_json_file, hne]

/-- Witness for C3 at a one-product list carrying an extra field. -/
theorem cold_path_catalogue_projects_products_witness :
    ([⟨"Widget", 2, [("colour", "red")]⟩] : List Product) ≠ []
    ∧ ((generate_price_catalogue "products.json"
          (FileState.valid [⟨"Widget", 2, [("colour", "red")]⟩]) "priceCatalogue.json"
          FileState.absent).result
        = ([⟨"Widget", 2, [("colour", "red")]⟩] : List Product).map projectProduct
      ∧ (generate_price_catalogue "products.json"
          (FileState.valid [⟨"Widget", 2, [("colour", "red")]⟩]) "priceCatalogue.json"
          FileState.absent).result.length
        = ([⟨"Widget", 2, [("colour", "red")]⟩] : List Product).length) :=
  ⟨by decide,
   cold_path_catalogue_projects_products "products.json" "priceCatalogue.json"
     [⟨"Widget", 2, [("colour", "red")]⟩] (by decide)⟩

/-- Claim C4: whenever a file exists at the cache path the builder returns
exactly what parsing that file gives — the parsed contents unchanged for a
parseable cache — writes nothing, and is entirely independent of the
product-list file's name, content and existence. -/
theorem warm_path_returns_cache_unchanged (pl pl' : String)
    (pf pf' : FileState (List Product)) (cn : String) (c : List CatEntry) :
    (generate_price_catalogue pl pf cn (FileState.valid c)).result = c
    ∧ (generate_price_catalogue pl pf cn (FileState.valid c)).cacheWrite = none
    ∧ generate_price_catalogue pl pf cn (FileState.valid c)
        = generate_price_catalogue pl' pf' cn (FileState.valid c)
    ∧ (generate_price_catalogue pl pf cn FileState.invalid).result
        = (load_json_file cn (FileState.invalid : FileState (List CatEntry))).1
    ∧ (generate_price_catalogue pl pf cn FileState.invalid).cacheWrite = none
    ∧ generate_price_catalogue pl pf cn FileState.invalid
        = generate_price_catalogue pl' pf' cn FileState.invalid :=
  ⟨rfl, rfl, rfl, rfl, rfl, rfl⟩

/-- Counterexample to C6 as stated: a product list that repeats a title
makes the cold path emit two catalogue entries with the same title. -/
theorem catalogue_keys_unique_counterexample :
    ¬ (((generate_price_catalogue "products.json"
          (FileState.valid [⟨"Widget", 2, []⟩, ⟨"Widget", 5, []⟩])
          "priceCatalogue.json" FileState.absent).result.map CatEntry.title).Nodup) := by
  decide

/-- Claim C6 as amended: the cold-path catalogue's titles are exactly the
input product titles in order, so its keys are unique precisely when the
input titles are. -/
theorem catalogue_titles_mirror_input (product_list_file catalogue_file : String)
    (ps : List Product) (h : ps ≠ []) :
    ((generate_price_catalogue product_list_file (FileState.valid ps) catalogue_file
        FileState.absent).result.map CatEntry.title) = ps.map Product.title
    ∧ (((generate_price_catalogue product_list_file (FileState.valid ps) catalogue_file
          FileState.absent).result.map CatEntry.title).Nodup
        ↔ (ps.map Product.title).Nodup) := by
  have hne : ps.isEmpty = false := by
    cases ps
    · exact absurd rfl h
    · rfl
  have h1 : ((generate_price_catalogue product_list_file (FileState.valid ps) catalogue_file
      FileState.absent).result.map CatEntry.title) = ps.map Product.title := by
    simp only [generate_price_catalogue, FileState.existsOnDisk, load_json_file, hne,
      Bool.false_eq_true, if_false, List.map_map]
    exact List.map_congr_left fun p _ => rfl
  exact ⟨h1, by rw [h1]⟩

/-- Witness for the amended C6 at a two-product list with distinct titles. -/
theorem catalogue_titles_mirror_input_witness :
    ([⟨"Widget", 2, []⟩, ⟨"Gadget", 5, []⟩] : List Product) ≠ []
    ∧ (((generate_price_catalogue "products.json"
          (FileState.valid [⟨"Widget", 2, []⟩, ⟨"Gadget", 5, []⟩]) "priceCatalogue.json"
          FileState.absent).result.map CatEntry.title)
        = ([⟨"Widget", 2, []⟩, ⟨"Gadget", 5, []⟩] : List Product).map Product.title
      ∧ (((generate_price_catalogue "products.json"
            (FileState.valid [⟨"Widget", 2, []⟩, ⟨"Gadget", 5, []⟩]) "priceCatalogue.json"
            FileState.absent).result.map CatEntry.title).Nodup
          ↔ (([⟨"Widget", 2, []⟩, ⟨"Gadget", 5, []⟩] : List Product).map Product.title).Nodup)) :=
  ⟨by decide,
   catalogue_titles_mirror_input "products.json" "priceCatalogue.json"
     [⟨"Widget", 2, []⟩, ⟨"Gadget", 5, []⟩] (by decide)⟩

/-- What `generate_price_catalogue` writes, for every input: nothing unless
the cache file is absent and the product list parses to a non-empty list, in
which case it writes the projected catalogue. -/
theorem gen_cacheWrite_eq (product_list_file catalogue_file : String)
    (pf : FileState (List Product)) (cf : FileState (List CatEntry)) :
    (generate_price_catalogue product_list_file pf catalogue_file cf).cacheWrite
      = match cf, pf with
        | FileState.absent, FileState.valid ps =>
          if ps.isEmpty then none else some (ps.map projectProduct)
        | _, _ => none := by
  cases cf with
  | absent =>
    cases pf with
    | valid ps =>
      by_cases hps : ps.isEmpty
      · simp [generate_price_catalogue, FileState.existsOnDisk, load_json_file, hps]
      · simp [generate_price_catalogue, FileState.existsOnDisk, load_json_file, hps]
    | absent => rfl
    | invalid => rfl
  | invalid => cases pf <;> rfl
  | valid c => cases pf <;> rfl

/-- Counterexample to C8 as stated: with no file at the cache path (the cold
path) but an unreadable product list, no cache write happens, refuting
"writes if and only if no file exists at the cache path". -/
theorem cache_write_iff_counterexample :
    FileState.existsOnDisk (FileState.absent : FileState (List CatEntry)) = false
    ∧ (generate_price_catalogue "products.json"
        (FileState.invalid : FileState (List Product)) "priceCatalogue.json"
        (FileState.absent : FileState (List CatEntry))).cacheWrite = none :=
  ⟨rfl, rfl⟩

/-- Claim C8 as amended: the builder writes the cache file exactly when no
file exists at the cache path and the product list loads as a non-empty
list (and then writes the projected catalogue); on the warm path it never
writes. -/
theorem cache_write_characterization (product_list_file catalogue_file : String)
    (pf : FileState (List Product)) (cf : FileState (List CatEntry)) :
    (generate_price_catalogue product_list_file pf catalogue_file cf).cacheWrite
      = match cf, pf with
        | FileState.absent, FileState.valid ps =>
          if ps.isEmpty then none else some (ps.map projectProduct)
        | _, _ => none :=
  gen_cacheWrite_eq product_list_file catalogue_file pf cf

/-! ### Claims about `main` -/

/-- The fatal conditions of the program: fewer than two command arguments,
a catalogue that could not be produced (missing/invalid/empty product list
or unusable cache), or a sales file that loads as empty
(missing/invalid/empty). -/
def fatalInput : Option RunInput → Prop
  | none => True
  | some r =>
    (generate_price_catalogue r.productListFile r.productF "priceCatalogue.json"
        r.cacheF).result = []
    ∨ ∃ nf ∈ r.salesFiles,
        (load_json_file nf.1 nf.2 : List SaleRecord × List String).1 = []

/-- The diagnostics the program can abort with. -/
def isDiagnostic (msg : String) : Prop :=
  msg = usageMsg ∨ msg = catalogueErrMsg ∨ ∃ f, msg = salesErrMsg f

theorem gen_cacheWrite_some {product_list_file catalogue_file : String}
    {pf : FileState (List Product)} {cf : FileState (List CatEntry)} {w : List CatEntry}
    (h : (generate_price_catalogue product_list_file pf catalogue_file cf).cacheWrite
      = some w) :
    cf = FileState.absent
      ∧ ∃ ps, pf = FileState.valid ps ∧ ps ≠ [] ∧ w = ps.map projectProduct := by
  rw [gen_cacheWrite_eq] at h
  cases cf with
  | absent =>
    cases pf with
    | valid ps =>
      have h2 : (if ps.isEmpty = true then (none : Option (List CatEntry))
          else some (ps.map projectProduct)) = some w := h
      by_cases hps : ps.isEmpty
      · rw [if_pos hps] at h2
        exact absurd h2 (by simp)
      · rw [if_neg hps] at h2
        refine ⟨rfl, ps, rfl, ?_, by injection h2 with h2; exact h2.symm⟩
        cases ps
        · exact absurd rfl hps
        · simp
    | absent => exact absurd h (by simp)
    | invalid => exact absurd h (by simp)
  | invalid => cases pf <;> exact absurd h (by simp)
  | valid c => cases pf <;> exact absurd h (by simp)

/-- The catalogue `main` works with (line 121 of the source). -/
def genOf (r : RunInput) : GenOut :=
  generate_price_catalogue r.productListFile r.productF "priceCatalogue.json" r.cacheF

theorem runMain_some_catFail (r : RunInput) (elapsed : ℚ)
    (hg : (generate_price_catalogue r.productListFile r.productF "priceCatalogue.json"
      r.cacheF).result.isEmpty = true) :
    runMain (some r) elapsed
      = { exitCode := 1, prints := (genOf r).prints ++ [catalogueErrMsg],
          cacheWrite := (genOf r).cacheWrite, outputWrite := none } := by
  simp only [runMain]
  rw [if_pos hg]
  rfl

theorem runMain_some_salesFail (r : RunInput) (elapsed : ℚ)
    (hg : (generate_price_catalogue r.productListFile r.productF "priceCatalogue.json"
      r.cacheF).result.isEmpty = false)
    (bad : String × (List SaleRecord × List String))
    (hf : (loadedSales r).find? (fun p => p.2.1.isEmpty) = some bad) :
    runMain (some r) elapsed
      = { exitCode := 1,
          prints := (genOf r).prints ++ ((loadedSales r).map fun p => p.2.2).flatten
            ++ [salesErrMsg bad.1],
          cacheWrite := (genOf r).cacheWrite, outputWrite := none } := by
  simp only [runMain]
  rw [if_neg (by simp [hg]), hf]
  rfl

theorem runMain_some_success (r : RunInput) (elapsed : ℚ)
    (hg : (generate_price_catalogue r.productListFile r.productF "priceCatalogue.json"
      r.cacheF).result.isEmpty = false)
    (hf : (loadedSales r).find? (fun p => p.2.1.isEmpty) = none) :
    runMain (some r) elapsed
      = { exitCode := 0,
          prints := (genOf r).prints ++ ((loadedSales r).map fun p => p.2.2).flatten
            ++ computeWarnings (genOf r).result ((loadedSales r).map fun p => p.2.1)
            ++ [renderResults
                  (compute_total_sales (genOf r).result ((loadedSales r).map fun p => p.2.1))
                  elapsed],
          cacheWrite := (genOf r).cacheWrite,
          outputWrite := some (renderResults
            (compute_total_sales (genOf r).result ((loadedSales r).map fun p => p.2.1))
            elapsed) } := by
  simp only [runMain]
  rw [if_neg (by simp [hg]), hf]
  rfl

/-- Claim C7 as amended: a run aborts with exit status 1 exactly on the
fatal conditions; it then writes no results file and its last printed line
is one of the program's diagnostics — but the catalogue cache file can
already have been written before the abort, exactly when the cache was
absent and the product list loaded as a non-empty list. -/
theorem fatal_conditions_abort (inp : Option RunInput) (elapsed : ℚ) :
    ((runMain inp elapsed).exitCode ≠ 0 ↔ fatalInput inp)
    ∧ ((runMain inp elapsed).exitCode ≠ 0 →
        (runMain inp elapsed).outputWrite = none
        ∧ (∃ msg, (runMain inp elapsed).prints.getLast? = some msg ∧ isDiagnostic msg)
        ∧ ∀ w, (runMain inp elapsed).cacheWrite = some w →
            ∃ r ps, inp = some r ∧ r.cacheF = FileState.absent
              ∧ r.productF = FileState.valid ps ∧ ps ≠ []
              ∧ w = ps.map projectProduct) := by
  cases inp with
  | none =>
    constructor
    · simp [runMain, fatalInput]
    · intro _
      refine ⟨rfl, ⟨usageMsg, rfl, Or.inl rfl⟩, ?_⟩
      intro w hw
      simp [runMain] at hw
  | some r =>
    cases hg : (generate_price_catalogue r.productListFile r.productF "priceCatalogue.json"
        r.cacheF).result.isEmpty with
    | true =>
      rw [runMain_some_catFail r elapsed hg]
      have hfa : fatalInput (some r) := Or.inl (List.isEmpty_iff.mp hg)
      constructor
      · exact ⟨fun _ => hfa, fun _ => Nat.one_ne_zero⟩
      · intro _
        refine ⟨rfl, ⟨catalogueErrMsg, List.getLast?_concat _, Or.inr (Or.inl rfl)⟩, ?_⟩
        intro w hw
        simp only [genOf] at hw
        obtain ⟨hcf, ps, hpf, hpsne, hww⟩ := gen_cacheWrite_some hw
        exact ⟨r, ps, rfl, hcf, hpf, hpsne, hww⟩
    | false =>
      cases hf : (loadedSales r).find? (fun p => p.2.1.isEmpty) with
      | some bad =>
        rw [runMain_some_salesFail r elapsed hg bad hf]
        have hfa : fatalInput (some r) := by
          right
          have hmem := List.mem_of_find?_eq_some hf
          have hbad : bad.2.1.isEmpty = true := by
            have := List.find?_some hf
            simpa using this
          simp only [loadedSales, List.mem_map] at hmem
          obtain ⟨nf, hnf, hbadeq⟩ := hmem
          refine ⟨nf, hnf, ?_⟩
          have hb21 : bad.2.1 = (load_json_file nf.1 nf.2).1 := by rw [← hbadeq]
          rw [← hb21]
          exact List.isEmpty_iff.mp hbad
        constructor
        · exact ⟨fun _ => hfa, fun _ => Nat.one_ne_zero⟩
        · intro _
          refine ⟨rfl, ⟨salesErrMsg bad.1, List.getLast?_concat _,
            Or.inr (Or.inr ⟨bad.1, rfl⟩)⟩, ?_⟩
          intro w hw
          simp only [genOf] at hw
          obtain ⟨hcf, ps, hpf, hpsne, hww⟩ := gen_cacheWrite_some hw
          exact ⟨r, ps, rfl, hcf, hpf, hpsne, hww⟩
      | none =>
        rw [runMain_some_success r elapsed hg hf]
        constructor
        · constructor
          · intro h
            exact absurd rfl h
          · intro hfa
            exfalso
            rcases hfa with h1 | ⟨nf, hnf, hload⟩
            · rw [h1] at hg
              simp at hg
            · have hmem : (nf.1, load_json_file nf.1 nf.2) ∈ loadedSales r := by
                simp only [loadedSales, List.mem_map]
                exact ⟨nf, hnf, rfl⟩
              have hall := List.find?_eq_none.mp hf _ hmem
              simp only [Bool.not_eq_true] at hall
              rw [hload] at hall
              simp at hall
        · intro h
          exact absurd rfl h

/-- Witness for C7's amended theorem at the too-few-arguments input. -/
theorem fatal_conditions_abort_witness :
    ((runMain none 0).exitCode ≠ 0 ↔ fatalInput none)
    ∧ ((runMain none 0).exitCode ≠ 0 →
        (runMain none 0).outputWrite = none
        ∧ (∃ msg, (runMain none 0).prints.getLast? = some msg ∧ isDiagnostic msg)
        ∧ ∀ w, (runMain none 0).cacheWrite = some w →
            ∃ r ps, (none : Option RunInput) = some r ∧ r.cacheF = FileState.absent
              ∧ r.productF = FileState.valid ps ∧ ps ≠ []
              ∧ w = ps.map projectProduct) :=
  fatal_conditions_abort none 0

/-- Counterexample to C7 as stated: a cold-path run over a valid product
list and an unreadable sales file aborts with exit status 1, yet the
catalogue cache file has already been written before the abort. -/
theorem cache_written_before_abort_counterexample :
    (runMain (some ⟨"products.json", FileState.valid [⟨"Widget", 2, []⟩], FileState.absent,
        [("sales.json", FileState.invalid)]⟩) 0).exitCode = 1
    ∧ (runMain (some ⟨"products.json", FileState.valid [⟨"Widget", 2, []⟩], FileState.absent,
        [("sales.json", FileState.invalid)]⟩) 0).cacheWrite = some [⟨"Widget", 2⟩]
    ∧ (runMain (some ⟨"products.json", FileState.valid [⟨"Widget", 2, []⟩], FileState.absent,
        [("sales.json", FileState.invalid)]⟩) 0).outputWrite = none :=
  ⟨rfl, rfl, rfl⟩
